import Mathlib

/-!
Verification of the go-swagger integration layer (OkanUysal/go-swagger).

The development shallowly embeds the Go sources:
  - the origin resolver detectHost / detectScheme (detect file),
  - the configuration record and its constructors (config file),
  - the document publisher: the swagger.json closure registered by
    SetupWithSwag (swag_integration.go), modelled over an explicit heap of
    generic maps so that map mutation and the per-request shallow copy are
    visible operationally,
  - LoadSwagDocs, SetupWithSwag, SetupFromDocs, the convenience Setup stub,
    and the typed-spec publisher (New, docHandler, Setup) from swagger.go.

Go maps are association lists, interface values are a small inductive of the
shapes the code distinguishes, nil pointers are Option, and a nil-pointer
dereference is an explicit error outcome.
-/

/-- Association-list lookup; Go map indexing m[k] (comma-ok form) and
http.Header.Get / os.Getenv are built on this. -/
def assocGet {α β : Type} [DecidableEq α] : List (α × β) → α → Option β
  | [], _ => none
  | (k, v) :: t, k2 => if k = k2 then some v else assocGet t k2

@[simp] theorem assocGet_nil {α β : Type} [DecidableEq α] (k : α) :
    assocGet ([] : List (α × β)) k = none := rfl

@[simp] theorem assocGet_cons {α β : Type} [DecidableEq α] (k k2 : α) (v : β)
    (t : List (α × β)) :
    assocGet ((k, v) :: t) k2 = if k = k2 then some v else assocGet t k2 := rfl

/-- Checks that the pattern (first argument) occurs at the head of the text
(second argument). Helper for the Go standard library predicates below. -/
def beginsWith : List Char → List Char → Bool
  | [], _ => true
  | _ :: _, [] => false
  | p :: ps, ch :: cs => decide (p = ch) && beginsWith ps cs

/-- Occurrence of a pattern anywhere in a character list; strings.Contains
over the underlying characters. -/
def containsL : List Char → List Char → Bool
  | [], pat => beginsWith pat []
  | ch :: t, pat => beginsWith pat (ch :: t) || containsL t pat

/-- Go strings.Contains. -/
def strContains (s pat : String) : Bool :=
  containsL s.data pat.data

/-- Go strings.HasSuffix over character lists. -/
def hasSuffixL (l suffix : List Char) : Bool :=
  Nat.ble suffix.length l.length &&
    decide (List.drop (l.length - suffix.length) l = suffix)

/-- Go strings.HasSuffix. -/
def strHasSuffix (s suffix : String) : Bool :=
  hasSuffixL s.data suffix.data

/-- Go strings.Split with a single-character separator, here the colon:
splits the character list at every colon, never returning an empty list of
parts. -/
def splitOnColon : List Char → List (List Char)
  | [] => [[]]
  | ch :: t =>
    if ch = ':' then [] :: splitOnColon t
    else
      match splitOnColon t with
      | [] => [[ch]]
      | h :: r => (ch :: h) :: r

/-- Go strings.Split(s, colon)[0]: the portion of s before its first colon
(all of s when it has no colon). -/
def splitColonHead (s : String) : String :=
  String.mk ((splitOnColon s.data).headD [])

/-- Process environment: association list of variable names to values; a
missing variable reads as the empty string, as with os.Getenv. -/
abbrev Env := List (String × String)

/-- Go os.Getenv. -/
def getenv (env : Env) (key : String) : String :=
  (assocGet env key).getD ""

/-- The parts of the gin request the detection code reads: the header set
(canonical keys), the negotiated Host value, and whether the connection has
TLS state (c.Request.TLS != nil). -/
structure Request where
  headers : List (String × String)
  host : String
  tls : Bool

/-- Go http.Header.Get: canonical-key lookup, empty string when absent. -/
def headerGet (hs : List (String × String)) (key : String) : String :=
  (assocGet hs key).getD ""

/-- detectHost from the detection source file: X-Forwarded-Host header, then
the request Host (standard ports stripped via strings.Split at the first
colon), then the four environment variables in order, then the literal
localhost fallback. -/
def detectHost (c : Request) (env : Env) : String :=
  let fwdHost := headerGet c.headers "X-Forwarded-Host"
  if fwdHost ≠ "" then fwdHost
  else if c.host ≠ "" then
    (if strHasSuffix c.host ":80" || strHasSuffix c.host ":443" then
      splitColonHead c.host
    else c.host)
  else
    let railwayURL := getenv env "RAILWAY_STATIC_URL"
    if railwayURL ≠ "" then railwayURL
    else
      let railwayURL2 := getenv env "RAILWAY_PUBLIC_DOMAIN"
      if railwayURL2 ≠ "" then railwayURL2
      else
        let apiHost := getenv env "API_HOST"
        if apiHost ≠ "" then apiHost
        else
          let apiURL := getenv env "API_URL"
          if apiURL ≠ "" then apiURL
          else "localhost:8080"

/-- detectScheme from the detection source file: https when TLS is present,
else a non-empty X-Forwarded-Proto verbatim, else https when the request
Host contains a Railway domain, else https when ENV is production or
staging, else http. -/
def detectScheme (c : Request) (env : Env) : String :=
  if c.tls then "https"
  else
    let proto := headerGet c.headers "X-Forwarded-Proto"
    if proto ≠ "" then proto
    else
      let host := c.host
      if strContains host ".railway.app" || strContains host ".up.railway.app" then
        "https"
      else if getenv env "ENV" = "production" ∨ getenv env "ENV" = "staging" then
        "https"
      else "http"

/-- The Config struct from the configuration source file. Field defaults are
the Go zero values, so an untouched literal matches a Go composite literal
with omitted fields. -/
structure Config where
  Title : String := ""
  Description : String := ""
  Version : String := ""
  Host : String := ""
  BasePath : String := ""
  Schemes : List String := []
  AutoDetectHost : Bool := false
  Enabled : Bool := false
  UIPath : String := ""
  JSONPath : String := ""
  BearerAuth : Bool := false
  ContactName : String := ""
  ContactEmail : String := ""
  ContactURL : String := ""
  LicenseName : String := ""
  LicenseURL : String := ""
deriving DecidableEq

/-- DefaultConfig from the configuration source file. -/
def DefaultConfig : Config :=
  { AutoDetectHost := true
    Enabled := true
    UIPath := "/swagger"
    JSONPath := "/swagger.json" }

/-- NewConfig from the configuration source file. -/
def NewConfig : Config :=
  { Title := "API"
    Description := "API Documentation"
    Version := "1.0.0"
    BasePath := "/"
    AutoDetectHost := true
    Enabled := true
    UIPath := "/swagger"
    JSONPath := "/swagger.json"
    BearerAuth := false }

/-- Generic interface value as distinguished by the publisher: the handler
only ever asks whether the value is a string-keyed map (obj), and otherwise
serves it unexamined; strings and string lists are the shapes it writes. -/
inductive SwagVal where
  | str (s : String)
  | strList (l : List String)
  | obj (entries : List (String × SwagVal))
  | null

/-- Go map assignment m[k] = v on an association list with unique keys:
replace the binding of k when present, append it otherwise. -/
def mapSet : List (String × SwagVal) → String → SwagVal → List (String × SwagVal)
  | [], k, v => [(k, v)]
  | (k1, v1) :: t, k, v =>
    if k1 = k then (k, v) :: t else (k1, v1) :: mapSet t k v

theorem assocGet_mapSet_self (m : List (String × SwagVal)) (k : String) (v : SwagVal) :
    assocGet (mapSet m k v) k = some v := by
  induction m with
  | nil => simp [mapSet]
  | cons kv t ih =>
    obtain ⟨k1, v1⟩ := kv
    by_cases h : k1 = k <;> simp [mapSet, h, ih]

theorem assocGet_mapSet_ne (m : List (String × SwagVal)) (k k2 : String) (v : SwagVal)
    (h : k ≠ k2) : assocGet (mapSet m k v) k2 = assocGet m k2 := by
  induction m with
  | nil => simp [mapSet, assocGet, h]
  | cons kv t ih =>
    obtain ⟨k1, v1⟩ := kv
    by_cases h1 : k1 = k
    · subst h1
      simp [mapSet, assocGet, h]
    · simp [mapSet, h1, assocGet, ih]

/-- HTTP response of the swagger.json handler: gin c.JSON(status, body). -/
structure Response where
  status : Nat
  body : SwagVal

/-- Heap of generic map values. Go creates the per-request dynamicSpec with
make and mutates it by key assignment; locations make aliasing between the
shared spec and the request-local copy explicit. Allocation hands out
fresh locations below next. -/
structure Heap where
  next : Nat
  cells : List (Nat × SwagVal)

/-- Reading a location; unallocated cells read as the nil interface value. -/
def Heap.read (h : Heap) (l : Nat) : SwagVal :=
  (assocGet h.cells l).getD SwagVal.null

/-- Overwriting a location. -/
def Heap.write (h : Heap) (l : Nat) (v : SwagVal) : Heap :=
  { next := h.next, cells := (l, v) :: h.cells }

/-- Allocating a fresh location holding v; models make plus the copy loop
when v is the cloned map. -/
def Heap.alloc (h : Heap) (v : SwagVal) : Heap × Nat :=
  ({ next := h.next + 1, cells := (h.next, v) :: h.cells }, h.next)

/-- Go map assignment through a location: dynamicSpec[k] = v. The location
always holds a map when the handler uses this. -/
def Heap.mapWrite (h : Heap) (l : Nat) (k : String) (v : SwagVal) : Heap :=
  match h.read l with
  | SwagVal.obj m => h.write l (SwagVal.obj (mapSet m k v))
  | _ => h

@[simp] theorem Heap.read_write_self (h : Heap) (l : Nat) (v : SwagVal) :
    (h.write l v).read l = v := by
  simp [Heap.read, Heap.write]

theorem Heap.read_write_ne (h : Heap) (l l2 : Nat) (v : SwagVal) (hne : l ≠ l2) :
    (h.write l v).read l2 = h.read l2 := by
  simp [Heap.read, Heap.write, hne]

@[simp] theorem Heap.write_next (h : Heap) (l : Nat) (v : SwagVal) :
    (h.write l v).next = h.next := rfl

theorem Heap.mapWrite_next (h : Heap) (l : Nat) (k : String) (v : SwagVal) :
    (h.mapWrite l k v).next = h.next := by
  unfold Heap.mapWrite
  cases h.read l <;> rfl

theorem Heap.read_mapWrite_ne (h : Heap) (l l2 : Nat) (k : String) (v : SwagVal)
    (hne : l ≠ l2) : (h.mapWrite l k v).read l2 = h.read l2 := by
  unfold Heap.mapWrite
  cases h.read l <;> simp [Heap.read_write_ne _ _ _ _ hne]

theorem Heap.read_mapWrite_obj (h : Heap) (l : Nat) (k : String) (v : SwagVal)
    (m : List (String × SwagVal)) (hm : h.read l = SwagVal.obj m) :
    (h.mapWrite l k v).read l = SwagVal.obj (mapSet m k v) := by
  unfold Heap.mapWrite
  rw [hm]
  simp

/-- The 500 body the handler emits when the held value is not a map:
gin.H with key error. -/
def errBody : SwagVal :=
  SwagVal.obj [("error", SwagVal.str "Invalid swagger spec")]

/-- The clone loop of the handler: a fresh map receiving every top-level
entry of the shared map by assignment, in range order. -/
def cloneEntries (m : List (String × SwagVal)) : List (String × SwagVal) :=
  m.foldl (fun acc kv => mapSet acc kv.1 kv.2) []

/-- The swagger.json closure that SetupWithSwag registers
(swag_integration.go): cast the held spec to a map (500 on failure), clone
it into a freshly allocated map, overwrite host and schemes on the clone
according to the configuration, and serve the clone with status 200. The
heap threads the identity of the shared map at specLoc against the
request-local allocation. -/
def serveJSONStep (config : Config) (specLoc : Nat) (c : Request) (env : Env)
    (h : Heap) : Heap × Response :=
  match h.read specLoc with
  | SwagVal.obj specMap =>
    let alloc1 := h.alloc (SwagVal.obj (cloneEntries specMap))
    let h1 := alloc1.1
    let dynLoc := alloc1.2
    let h2 :=
      if config.AutoDetectHost then
        (h1.mapWrite dynLoc "host" (SwagVal.str (detectHost c env))).mapWrite
          dynLoc "schemes" (SwagVal.strList [detectScheme c env])
      else if config.Host ≠ "" then
        let hh := h1.mapWrite dynLoc "host" (SwagVal.str config.Host)
        if 0 < config.Schemes.length then
          hh.mapWrite dynLoc "schemes" (SwagVal.strList config.Schemes)
        else
          hh.mapWrite dynLoc "schemes" (SwagVal.strList [detectScheme c env])
      else h1
    (h2, { status := 200, body := h2.read dynLoc })
  | _ => (h, { status := 500, body := errBody })

/-- Closed form of the map the handler serves on the success path, as a
function of the held map and the inputs; derived from serveJSONStep by the
characterization lemma below. -/
def dynamicSpecOf (config : Config) (m : List (String × SwagVal)) (c : Request)
    (env : Env) : List (String × SwagVal) :=
  if config.AutoDetectHost then
    mapSet (mapSet (cloneEntries m) "host" (SwagVal.str (detectHost c env)))
      "schemes" (SwagVal.strList [detectScheme c env])
  else if config.Host ≠ "" then
    if 0 < config.Schemes.length then
      mapSet (mapSet (cloneEntries m) "host" (SwagVal.str config.Host))
        "schemes" (SwagVal.strList config.Schemes)
    else
      mapSet (mapSet (cloneEntries m) "host" (SwagVal.str config.Host))
        "schemes" (SwagVal.strList [detectScheme c env])
  else cloneEntries m

/-- Host and schemes entries of a response body, when the body is a map. -/
def Response.hostField (r : Response) : Option SwagVal :=
  match r.body with
  | SwagVal.obj m => assocGet m "host"
  | _ => none

def Response.schemesField (r : Response) : Option SwagVal :=
  match r.body with
  | SwagVal.obj m => assocGet m "schemes"
  | _ => none

/-- On a held value that is not a map the handler emits 500 with the error
body and returns without touching the heap. -/
theorem serveJSONStep_not_obj (config : Config) (specLoc : Nat) (c : Request)
    (env : Env) (h : Heap)
    (hno : ∀ m, h.read specLoc ≠ SwagVal.obj m) :
    serveJSONStep config specLoc c env h = (h, { status := 500, body := errBody }) := by
  cases hr : h.read specLoc with
  | obj m => exact absurd hr (hno m)
  | str s => simp [serveJSONStep, hr]
  | strList l => simp [serveJSONStep, hr]
  | null => simp [serveJSONStep, hr]

/-- On a held map the handler responds 200 with the cloned-and-overridden
map described by dynamicSpecOf. -/
theorem serveJSONStep_obj (config : Config) (specLoc : Nat) (c : Request)
    (env : Env) (h : Heap) (m : List (String × SwagVal))
    (hm : h.read specLoc = SwagVal.obj m) :
    (serveJSONStep config specLoc c env h).2 =
      { status := 200, body := SwagVal.obj (dynamicSpecOf config m c env) } := by
  have hm2 : (assocGet h.cells specLoc).getD SwagVal.null = SwagVal.obj m := hm
  by_cases hA : config.AutoDetectHost = true
  · simp [serveJSONStep, hm2, dynamicSpecOf, Heap.alloc, Heap.mapWrite, Heap.read,
      Heap.write, hA]
  · by_cases hH : config.Host = ""
    · simp [serveJSONStep, hm2, dynamicSpecOf, Heap.alloc, Heap.mapWrite, Heap.read,
        Heap.write, hA, hH]
    · by_cases hS : 0 < config.Schemes.length
      · simp [serveJSONStep, hm2, dynamicSpecOf, Heap.alloc, Heap.mapWrite, Heap.read,
          Heap.write, hA, hH, hS]
      · simp [serveJSONStep, hm2, dynamicSpecOf, Heap.alloc, Heap.mapWrite, Heap.read,
          Heap.write, hA, hH, hS]

/-- The handler never writes the shared map: reading any previously
allocated location after a request returns what it held before. -/
theorem serveJSONStep_frame (config : Config) (specLoc : Nat) (c : Request)
    (env : Env) (h : Heap) (l : Nat) (hlt : l < h.next) :
    (serveJSONStep config specLoc c env h).1.read l = h.read l := by
  have hne : ¬ h.next = l := Nat.ne_of_gt hlt
  cases hr : h.read specLoc with
  | obj m =>
    have hr2 : (assocGet h.cells specLoc).getD SwagVal.null = SwagVal.obj m := hr
    by_cases hA : config.AutoDetectHost = true
    · simp [serveJSONStep, hr2, Heap.alloc, Heap.mapWrite, Heap.read, Heap.write,
        hA, hne]
    · by_cases hH : config.Host = ""
      · simp [serveJSONStep, hr2, Heap.alloc, Heap.mapWrite, Heap.read, Heap.write,
          hA, hH, hne]
      · by_cases hS : 0 < config.Schemes.length
        · simp [serveJSONStep, hr2, Heap.alloc, Heap.mapWrite, Heap.read, Heap.write,
            hA, hH, hS, hne]
        · simp [serveJSONStep, hr2, Heap.alloc, Heap.mapWrite, Heap.read, Heap.write,
            hA, hH, hS, hne]
  | str s => simp [serveJSONStep, hr]
  | strList l2 => simp [serveJSONStep, hr]
  | null => simp [serveJSONStep, hr]

/-- Allocation only moves the frontier forward across a request. -/
theorem serveJSONStep_next (config : Config) (specLoc : Nat) (c : Request)
    (env : Env) (h : Heap) :
    h.next ≤ (serveJSONStep config specLoc c env h).1.next := by
  cases hr : h.read specLoc with
  | obj m =>
    have hr2 : (assocGet h.cells specLoc).getD SwagVal.null = SwagVal.obj m := hr
    by_cases hA : config.AutoDetectHost = true
    · simp [serveJSONStep, hr2, Heap.alloc, Heap.mapWrite, Heap.read, Heap.write, hA]
    · by_cases hH : config.Host = ""
      · simp [serveJSONStep, hr2, Heap.alloc, Heap.mapWrite, Heap.read, Heap.write,
          hA, hH]
      · by_cases hS : 0 < config.Schemes.length
        · simp [serveJSONStep, hr2, Heap.alloc, Heap.mapWrite, Heap.read, Heap.write,
            hA, hH, hS]
        · simp [serveJSONStep, hr2, Heap.alloc, Heap.mapWrite, Heap.read, Heap.write,
            hA, hH, hS]
  | str s => simp [serveJSONStep, hr]
  | strList l2 => simp [serveJSONStep, hr]
  | null => simp [serveJSONStep, hr]


/-- The package-level state of swag_integration.go: the SwagSpec global
interface variable, nil before any setup. -/
structure GlobalState where
  SwagSpec : Option SwagVal
deriving Inhabited

/-- Routes a setup entry point registers on the gin engine: the swagger.json
GET route and the wildcard UI GET route. -/
inductive Route where
  | json (path : String)
  | ui (path : String)
deriving DecidableEq

/-- LoadSwagDocs from swag_integration.go. The external encoding/json
Unmarshal is a parameter: the Go function returns (nil, err) exactly when
Unmarshal fails and (spec, nil) otherwise, and never touches the package
state, which is threaded to make that visible. -/
def LoadSwagDocs (unmarshal : String → Except String SwagVal) (docJSON : String)
    (g : GlobalState) : Except String SwagVal × GlobalState :=
  match unmarshal docJSON with
  | Except.error e => (Except.error e, g)
  | Except.ok spec => (Except.ok spec, g)

/-- SetupWithSwag from swag_integration.go: substitute defaults for a nil
config, return immediately (registering nothing, leaving the global alone)
when disabled, otherwise publish the spec to the global and register the
JSON route (whose handler is serveJSONStep) and the UI route. -/
def SetupWithSwag (swagSpec : SwagVal) (config0 : Option Config)
    (g : GlobalState) : GlobalState × List Route :=
  let config := config0.getD DefaultConfig
  if ¬ config.Enabled then (g, [])
  else
    ({ SwagSpec := some swagSpec },
      [Route.json config.JSONPath, Route.ui (config.UIPath ++ "/*any")])

/-- SetupFromDocs from swag_integration.go: the swaggerInfo argument is
modelled by the optional result of its ReadDoc method; none stands for a
value that does not implement the interface, for which the Go code returns
http.ErrNotSupported. -/
def SetupFromDocs (unmarshal : String → Except String SwagVal)
    (swaggerInfo : Option String) (config0 : Option Config) (g : GlobalState) :
    Except String (GlobalState × List Route) :=
  let config := config0.getD DefaultConfig
  match swaggerInfo with
  | none => Except.error "http.ErrNotSupported"
  | some doc =>
    match (LoadSwagDocs unmarshal doc g).1 with
    | Except.error e => Except.error e
    | Except.ok swagSpec => Except.ok (SetupWithSwag swagSpec (some config) g)

namespace Stub

/-- Setup from the swag_integration variant source file: substitutes
defaults for a nil config and then registers the UI wildcard route
unconditionally, reading no spec and never consulting Enabled; its error
result is always nil, so only the route list is modelled. -/
def Setup (config0 : Option Config) : List Route :=
  let config := config0.getD DefaultConfig
  [Route.ui (config.UIPath ++ "/*any")]

end Stub

namespace SwaggerGo

/-- Contact from swagger.go. -/
structure Contact where
  name : String := ""
  email : String := ""
  url : String := ""
deriving DecidableEq

/-- License from swagger.go. -/
structure License where
  name : String := ""
  url : String := ""
deriving DecidableEq

/-- SecurityDefinition from swagger.go; the Go field In is named inField
because in is a Lean keyword. -/
structure SecurityDefinition where
  type : String := ""
  inField : String := ""
  name : String := ""
deriving DecidableEq

/-- Info from swagger.go. -/
structure Info where
  title : String := ""
  description : String := ""
  version : String := ""
  contact : Option Contact := none
  license : Option License := none
deriving DecidableEq

/-- SwaggerSpec from swagger.go; Paths and Definitions stay generic maps. -/
structure SwaggerSpec where
  swagger : String := ""
  info : Info := {}
  host : String := ""
  basePath : String := ""
  schemes : List String := []
  paths : List (String × String) := []
  definitions : List (String × String) := []
  securityDefinitions : List (String × SecurityDefinition) := []
deriving DecidableEq

/-- The Swagger publisher from swagger.go: a configuration and the one
long-lived spec instance the doc handler serves and mutates. -/
structure Swagger where
  config : Config
  spec : SwaggerSpec
deriving DecidableEq

/-- New from swagger.go: substitutes defaults for a nil config and builds
the typed spec from configuration fields, adding contact, license and the
Bearer security definition conditionally. -/
def New (config0 : Option Config) : Swagger :=
  let config := config0.getD DefaultConfig
  let spec : SwaggerSpec :=
    { swagger := "2.0"
      host := config.Host
      basePath := config.BasePath
      schemes := config.Schemes
      info :=
        { title := config.Title
          description := config.Description
          version := config.Version }
      paths := []
      definitions := [] }
  let spec :=
    if config.ContactName ≠ "" ∨ config.ContactEmail ≠ "" ∨ config.ContactURL ≠ "" then
      { spec with
          info :=
            { spec.info with
                contact := some
                  { name := config.ContactName
                    email := config.ContactEmail
                    url := config.ContactURL } } }
    else spec
  let spec :=
    if config.LicenseName ≠ "" then
      { spec with
          info :=
            { spec.info with
                license := some
                  { name := config.LicenseName, url := config.LicenseURL } } }
    else spec
  let spec :=
    if config.BearerAuth then
      { spec with
          securityDefinitions :=
            [("Bearer",
              { type := "apiKey", inField := "header", name := "Authorization" })] }
    else spec
  { config := config, spec := spec }

/-- Response of the swagger.go doc handler: status and the typed spec the
handler serializes. -/
structure SpecResponse where
  status : Nat
  body : SwaggerSpec
deriving DecidableEq

/-- docHandler from swagger.go. Unlike the SetupWithSwag closure it takes no
copy: the assignments s.spec.Host = ... and s.spec.Schemes = ... mutate the
shared Swagger instance, so the updated publisher state is returned next to
the response. -/
def docHandler (s : Swagger) (c : Request) (env : Env) : Swagger × SpecResponse :=
  let s2 :=
    if s.config.AutoDetectHost then
      { s with
          spec :=
            { s.spec with
                host := detectHost c env
                schemes := [detectScheme c env] } }
    else if s.config.Host ≠ "" then
      let s1 := { s with spec := { s.spec with host := s.config.Host } }
      if 0 < s1.config.Schemes.length then
        { s1 with spec := { s1.spec with schemes := s1.config.Schemes } }
      else
        { s1 with spec := { s1.spec with schemes := [detectScheme c env] } }
    else s
  (s2, { status := 200, body := s2.spec })

/-- Setup from swagger.go: builds the publisher with New, which substitutes
defaults for nil, but then reads Enabled from its own, possibly nil, config
argument; with a nil argument that read is a nil-pointer dereference,
modelled as the error outcome. When it succeeds it either registers nothing
(disabled) or the JSON route served by docHandler plus the UI route. -/
def Setup (config0 : Option Config) : Except String (Swagger × List Route) :=
  let swagger := New config0
  match config0 with
  | none => Except.error "nil pointer dereference reading config.Enabled"
  | some config =>
    if ¬ config.Enabled then Except.ok (swagger, [])
    else
      Except.ok (swagger,
        [Route.json config.JSONPath, Route.ui (config.UIPath ++ "/*any")])

end SwaggerGo

/-! Helper lemmas for the claim theorems. -/

theorem splitOnColon_append_colon (l1 l2 : List Char) (h : ¬ ':' ∈ l1) :
    splitOnColon (l1 ++ ':' :: l2) = l1 :: splitOnColon l2 := by
  induction l1 with
  | nil => simp [splitOnColon]
  | cons a t ih =>
    have ha : ¬ a = ':' := fun e => h (by simp [e])
    have ht : ¬ ':' ∈ t := fun m => h (List.mem_cons_of_mem _ m)
    simp [splitOnColon, ha, ih ht]

/-- Responses of the swagger.json handler depend on the heap only through
the value held at the spec location. -/
theorem serveJSONStep_resp_congr (config : Config) (specLoc : Nat) (c : Request)
    (env : Env) (h h2 : Heap) (he : h2.read specLoc = h.read specLoc) :
    (serveJSONStep config specLoc c env h2).2 = (serveJSONStep config specLoc c env h).2 := by
  cases hr : h.read specLoc with
  | obj m =>
    rw [serveJSONStep_obj config specLoc c env h2 m (he.trans hr),
      serveJSONStep_obj config specLoc c env h m hr]
  | str s =>
    have hno : ∀ m, h.read specLoc ≠ SwagVal.obj m := by
      intro m hh; rw [hr] at hh; exact SwagVal.noConfusion hh
    have hno2 : ∀ m, h2.read specLoc ≠ SwagVal.obj m := by
      intro m hh; rw [he, hr] at hh; exact SwagVal.noConfusion hh
    rw [serveJSONStep_not_obj config specLoc c env h hno,
      serveJSONStep_not_obj config specLoc c env h2 hno2]
  | strList l =>
    have hno : ∀ m, h.read specLoc ≠ SwagVal.obj m := by
      intro m hh; rw [hr] at hh; exact SwagVal.noConfusion hh
    have hno2 : ∀ m, h2.read specLoc ≠ SwagVal.obj m := by
      intro m hh; rw [he, hr] at hh; exact SwagVal.noConfusion hh
    rw [serveJSONStep_not_obj config specLoc c env h hno,
      serveJSONStep_not_obj config specLoc c env h2 hno2]
  | null =>
    have hno : ∀ m, h.read specLoc ≠ SwagVal.obj m := by
      intro m hh; rw [hr] at hh; exact SwagVal.noConfusion hh
    have hno2 : ∀ m, h2.read specLoc ≠ SwagVal.obj m := by
      intro m hh; rw [he, hr] at hh; exact SwagVal.noConfusion hh
    rw [serveJSONStep_not_obj config specLoc c env h hno,
      serveJSONStep_not_obj config specLoc c env h2 hno2]

/-! Claim theorems. -/

/-- Claim C2, counterexample. The claim states that with no X-Forwarded-Host
header and a non-empty Host the resolved host equals the Host value itself;
for Host example.com:443 the code instead strips the standard port and
returns example.com. -/
theorem detectHost_echoes_host_refuted :
    detectHost { headers := [], host := "example.com:443", tls := false } [] = "example.com" ∧
    "example.com" ≠ "example.com:443" := by
  constructor
  · decide
  · decide

/-- Claim C2, amended: host resolution follows the exact precedence
X-Forwarded-Host, then the request Host (returned verbatim unless it ends
in :80 or :443, in which case only the portion before the first colon is
returned), then RAILWAY_STATIC_URL, RAILWAY_PUBLIC_DOMAIN, API_HOST,
API_URL in order, then the literal localhost:8080; first non-empty wins and
there is no error outcome. -/
theorem detectHost_precedence (c : Request) (env : Env) :
    (headerGet c.headers "X-Forwarded-Host" ≠ "" →
      detectHost c env = headerGet c.headers "X-Forwarded-Host") ∧
    (headerGet c.headers "X-Forwarded-Host" = "" → c.host ≠ "" →
      (strHasSuffix c.host ":80" || strHasSuffix c.host ":443") = true →
      detectHost c env = splitColonHead c.host) ∧
    (headerGet c.headers "X-Forwarded-Host" = "" → c.host ≠ "" →
      (strHasSuffix c.host ":80" || strHasSuffix c.host ":443") = false →
      detectHost c env = c.host) ∧
    (headerGet c.headers "X-Forwarded-Host" = "" → c.host = "" →
      getenv env "RAILWAY_STATIC_URL" ≠ "" →
      detectHost c env = getenv env "RAILWAY_STATIC_URL") ∧
    (headerGet c.headers "X-Forwarded-Host" = "" → c.host = "" →
      getenv env "RAILWAY_STATIC_URL" = "" →
      getenv env "RAILWAY_PUBLIC_DOMAIN" ≠ "" →
      detectHost c env = getenv env "RAILWAY_PUBLIC_DOMAIN") ∧
    (headerGet c.headers "X-Forwarded-Host" = "" → c.host = "" →
      getenv env "RAILWAY_STATIC_URL" = "" →
      getenv env "RAILWAY_PUBLIC_DOMAIN" = "" →
      getenv env "API_HOST" ≠ "" →
      detectHost c env = getenv env "API_HOST") ∧
    (headerGet c.headers "X-Forwarded-Host" = "" → c.host = "" →
      getenv env "RAILWAY_STATIC_URL" = "" →
      getenv env "RAILWAY_PUBLIC_DOMAIN" = "" →
      getenv env "API_HOST" = "" →
      getenv env "API_URL" ≠ "" →
      detectHost c env = getenv env "API_URL") ∧
    (headerGet c.headers "X-Forwarded-Host" = "" → c.host = "" →
      getenv env "RAILWAY_STATIC_URL" = "" →
      getenv env "RAILWAY_PUBLIC_DOMAIN" = "" →
      getenv env "API_HOST" = "" →
      getenv env "API_URL" = "" →
      detectHost c env = "localhost:8080") := by
  refine ⟨?_, ?_, ?_, ?_, ?_, ?_, ?_, ?_⟩ <;>
    intros <;> simp [detectHost, *]

/-- Claim C2, witness: every precedence level realized at a concrete
request and environment. -/
theorem detectHost_precedence_witness :
    detectHost { headers := [("X-Forwarded-Host", "fwd.example")], host := "other.example", tls := false } [] = "fwd.example" ∧
    detectHost { headers := [], host := "plain.example:443", tls := false } [] = "plain.example" ∧
    detectHost { headers := [], host := "plain.example", tls := false } [] = "plain.example" ∧
    detectHost { headers := [], host := "", tls := false } [("RAILWAY_STATIC_URL", "s.up.railway.app")] = "s.up.railway.app" ∧
    detectHost { headers := [], host := "", tls := false } [("RAILWAY_PUBLIC_DOMAIN", "d.up.railway.app")] = "d.up.railway.app" ∧
    detectHost { headers := [], host := "", tls := false } [("API_HOST", "h.example")] = "h.example" ∧
    detectHost { headers := [], host := "", tls := false } [("API_URL", "u.example")] = "u.example" ∧
    detectHost { headers := [], host := "", tls := false } [] = "localhost:8080" :=
  ⟨((detectHost_precedence _ _).1 (by decide)).trans (by decide),
   ((detectHost_precedence _ _).2.1 (by decide) (by decide) (by decide)).trans (by decide),
   ((detectHost_precedence _ _).2.2.1 (by decide) (by decide) (by decide)),
   ((detectHost_precedence _ _).2.2.2.1 (by decide) (by decide) (by decide)).trans (by decide),
   ((detectHost_precedence _ _).2.2.2.2.1 (by decide) (by decide) (by decide) (by decide)).trans (by decide),
   ((detectHost_precedence _ _).2.2.2.2.2.1 (by decide) (by decide) (by decide) (by decide) (by decide)).trans (by decide),
   ((detectHost_precedence _ _).2.2.2.2.2.2.1 (by decide) (by decide) (by decide) (by decide) (by decide) (by decide)).trans (by decide),
   ((detectHost_precedence _ _).2.2.2.2.2.2.2 (by decide) (by decide) (by decide) (by decide) (by decide) (by decide))⟩

/-- Claim C6, counterexample. For a Host with more than one colon the code
does not remove only the port suffix: the bracketed IPv6 Host
value ending in :443 resolves to the fragment before the first colon, not
to the claimed value with just the port removed. -/
theorem detectHost_port_strip_refuted :
    detectHost { headers := [], host := "[::1]:443", tls := false } [] = "[" ∧
    "[" ≠ "[::1]" := by
  constructor
  · decide
  · decide

/-- Claim C6, amended: with no X-Forwarded-Host header and a Host ending in
:80 or :443, the resolved host is the portion of the Host value before its
FIRST colon; for the typical single-colon name:port form this removes
exactly the port suffix, but multi-colon Host values are truncated at the
first colon. -/
theorem detectHost_standard_port_truncates (c : Request) (env : Env)
    (hfwd : headerGet c.headers "X-Forwarded-Host" = "")
    (hhost : c.host ≠ "")
    (hsuf : (strHasSuffix c.host ":80" || strHasSuffix c.host ":443") = true) :
    detectHost c env = splitColonHead c.host ∧
    ∀ l1 l2 : List Char, ¬ ':' ∈ l1 →
      splitColonHead (String.mk (l1 ++ ':' :: l2)) = String.mk l1 := by
  constructor
  · simp [detectHost, hfwd, hhost, hsuf]
  · intro l1 l2 hno
    simp [splitColonHead, splitOnColon_append_colon l1 l2 hno]

/-- Claim C6, witness: the single-colon case strips exactly the port. -/
theorem detectHost_standard_port_truncates_witness :
    detectHost { headers := [], host := "api.example.com:80", tls := false } [] = "api.example.com" ∧
    splitColonHead (String.mk (("api.example.com").data ++ ':' :: ("80").data)) = "api.example.com" :=
  ⟨((detectHost_standard_port_truncates { headers := [], host := "api.example.com:80", tls := false } [] (by decide) (by decide) (by decide)).1).trans (by decide),
   ((detectHost_standard_port_truncates { headers := [], host := "api.example.com:80", tls := false } [] (by decide) (by decide) (by decide)).2 ("api.example.com").data ("80").data (by decide))⟩

/-- Claim C3: scheme resolution follows the exact precedence TLS, then a
non-empty X-Forwarded-Proto verbatim, then the Railway domain suffixes in
the request Host, then the ENV variable being production or staging, then
http. -/
theorem detectScheme_precedence (c : Request) (env : Env) :
    (c.tls = true → detectScheme c env = "https") ∧
    (c.tls = false → headerGet c.headers "X-Forwarded-Proto" ≠ "" →
      detectScheme c env = headerGet c.headers "X-Forwarded-Proto") ∧
    (c.tls = false → headerGet c.headers "X-Forwarded-Proto" = "" →
      (strContains c.host ".railway.app" || strContains c.host ".up.railway.app") = true →
      detectScheme c env = "https") ∧
    (c.tls = false → headerGet c.headers "X-Forwarded-Proto" = "" →
      (strContains c.host ".railway.app" || strContains c.host ".up.railway.app") = false →
      (getenv env "ENV" = "production" ∨ getenv env "ENV" = "staging") →
      detectScheme c env = "https") ∧
    (c.tls = false → headerGet c.headers "X-Forwarded-Proto" = "" →
      (strContains c.host ".railway.app" || strContains c.host ".up.railway.app") = false →
      ¬ (getenv env "ENV" = "production" ∨ getenv env "ENV" = "staging") →
      detectScheme c env = "http") := by
  refine ⟨?_, ?_, ?_, ?_, ?_⟩ <;>
    intros <;> simp [detectScheme, *]

/-- Claim C3, witness: every precedence level realized concretely, with the
proxy header taken verbatim even for a nonstandard value. -/
theorem detectScheme_precedence_witness :
    detectScheme { headers := [], host := "x.example", tls := true } [] = "https" ∧
    detectScheme { headers := [("X-Forwarded-Proto", "ws")], host := "x.railway.app", tls := false } [] = "ws" ∧
    detectScheme { headers := [], host := "x.up.railway.app", tls := false } [] = "https" ∧
    detectScheme { headers := [], host := "x.example", tls := false } [("ENV", "staging")] = "https" ∧
    detectScheme { headers := [], host := "x.example", tls := false } [("ENV", "development")] = "http" :=
  ⟨(detectScheme_precedence _ _).1 (by decide),
   ((detectScheme_precedence _ _).2.1 (by decide) (by decide)).trans (by decide),
   (detectScheme_precedence _ _).2.2.1 (by decide) (by decide) (by decide),
   (detectScheme_precedence _ _).2.2.2.1 (by decide) (by decide) (by decide) (by decide),
   (detectScheme_precedence _ _).2.2.2.2 (by decide) (by decide) (by decide) (by decide)⟩

/-- Claim C4, counterexample. The Railway-domain scheme step inspects the
request Host value, not the resolved host: here the resolved host (taken
from X-Forwarded-Host) contains the Railway suffix, TLS is off and no proxy
scheme header is present, yet the scheme resolves to http, not https as the
claim states. -/
theorem resolved_railway_host_https_refuted :
    strContains (detectHost { headers := [("X-Forwarded-Host", "myapp.up.railway.app")], host := "internal.local", tls := false } []) ".railway.app" = true ∧
    headerGet [("X-Forwarded-Host", "myapp.up.railway.app")] "X-Forwarded-Proto" = "" ∧
    detectScheme { headers := [("X-Forwarded-Host", "myapp.up.railway.app")], host := "internal.local", tls := false } [] = "http" ∧
    "http" ≠ "https" := by
  refine ⟨?_, ?_, ?_, ?_⟩ <;> decide

/-- Claim C4, amended: with TLS off and no X-Forwarded-Proto header, if the
REQUEST Host value (not the resolved host) contains a Railway domain
suffix, the resolved scheme is https. -/
theorem detectScheme_railway_request_host (c : Request) (env : Env)
    (htls : c.tls = false)
    (hproto : headerGet c.headers "X-Forwarded-Proto" = "")
    (hrail : (strContains c.host ".railway.app" || strContains c.host ".up.railway.app") = true) :
    detectScheme c env = "https" := by
  simp [detectScheme, htls, hproto, hrail]

/-- Claim C4, witness. -/
theorem detectScheme_railway_request_host_witness :
    detectScheme { headers := [], host := "myapp.up.railway.app", tls := false } [] = "https" :=
  detectScheme_railway_request_host { headers := [], host := "myapp.up.railway.app", tls := false } [] (by decide) (by decide) (by decide)

/-- Claim C1, counterexample. The doc handler of the typed publisher
(swagger.go) writes the detected host directly into the shared spec rather
than into a copy: after one documentation-JSON request the host field of the
publisher held base spec has changed from its initial empty value. -/
theorem docHandler_mutates_shared_spec :
    ((SwaggerGo.docHandler (SwaggerGo.New (some DefaultConfig)) { headers := [("X-Forwarded-Host", "myapi.example.com")], host := "", tls := false } []).1).spec.host = "myapi.example.com" ∧
    (SwaggerGo.New (some DefaultConfig)).spec.host = "" := by
  constructor
  · decide
  · decide

/-- Claim C1, amended: for the swagger.json handler registered by
SetupWithSwag the claim holds — the request writes host and schemes only
into a freshly allocated copy, the shared base map at specLoc is unchanged
after the request and still after a second request, and the two successive
requests produce identical responses. The docHandler route of the swagger.go
Setup, by contrast, mutates the shared spec in place (see the
counterexample). -/
theorem serveJSON_base_unchanged (config : Config) (specLoc : Nat) (c : Request)
    (env : Env) (h : Heap) (hlt : specLoc < h.next) :
    (serveJSONStep config specLoc c env h).1.read specLoc = h.read specLoc ∧
    (serveJSONStep config specLoc c env (serveJSONStep config specLoc c env h).1).1.read specLoc = h.read specLoc ∧
    (serveJSONStep config specLoc c env (serveJSONStep config specLoc c env h).1).2 = (serveJSONStep config specLoc c env h).2 := by
  have h1 := serveJSONStep_frame config specLoc c env h specLoc hlt
  have hlt2 : specLoc < (serveJSONStep config specLoc c env h).1.next :=
    Nat.lt_of_lt_of_le hlt (serveJSONStep_next config specLoc c env h)
  have h2 := serveJSONStep_frame config specLoc c env _ specLoc hlt2
  exact ⟨h1, h2.trans h1, serveJSONStep_resp_congr config specLoc c env h _ h1⟩

/-- Claim C1, witness: a concrete shared document, twice served. -/
theorem serveJSON_base_unchanged_witness :
    0 < ({ next := 1, cells := [(0, SwagVal.obj [("host", SwagVal.str "orig")])] } : Heap).next ∧
    ((serveJSONStep DefaultConfig 0 { headers := [], host := "w.example", tls := false } [] { next := 1, cells := [(0, SwagVal.obj [("host", SwagVal.str "orig")])] }).1.read 0 = ({ next := 1, cells := [(0, SwagVal.obj [("host", SwagVal.str "orig")])] } : Heap).read 0 ∧
      (serveJSONStep DefaultConfig 0 { headers := [], host := "w.example", tls := false } [] (serveJSONStep DefaultConfig 0 { headers := [], host := "w.example", tls := false } [] { next := 1, cells := [(0, SwagVal.obj [("host", SwagVal.str "orig")])] }).1).1.read 0 = ({ next := 1, cells := [(0, SwagVal.obj [("host", SwagVal.str "orig")])] } : Heap).read 0 ∧
      (serveJSONStep DefaultConfig 0 { headers := [], host := "w.example", tls := false } [] (serveJSONStep DefaultConfig 0 { headers := [], host := "w.example", tls := false } [] { next := 1, cells := [(0, SwagVal.obj [("host", SwagVal.str "orig")])] }).1).2 = (serveJSONStep DefaultConfig 0 { headers := [], host := "w.example", tls := false } [] { next := 1, cells := [(0, SwagVal.obj [("host", SwagVal.str "orig")])] }).2) :=
  ⟨Nat.zero_lt_one,
   serveJSON_base_unchanged DefaultConfig 0 { headers := [], host := "w.example", tls := false } [] { next := 1, cells := [(0, SwagVal.obj [("host", SwagVal.str "orig")])] } Nat.zero_lt_one⟩

/-- Claim C9: when the held value at the spec location is not a generic map
the handler answers 500 with the JSON error body and leaves the whole heap
untouched, so later requests start from the same state; when it is a map the
handler answers 200 with the serialized working copy described by
dynamicSpecOf. -/
theorem serveJSON_error_semantics (config : Config) (specLoc : Nat) (c : Request)
    (env : Env) (h : Heap) :
    ((∀ m, h.read specLoc ≠ SwagVal.obj m) →
      serveJSONStep config specLoc c env h = (h, { status := 500, body := errBody })) ∧
    (∀ m, h.read specLoc = SwagVal.obj m →
      (serveJSONStep config specLoc c env h).2 = { status := 200, body := SwagVal.obj (dynamicSpecOf config m c env) }) :=
  ⟨serveJSONStep_not_obj config specLoc c env h,
   fun m hm => serveJSONStep_obj config specLoc c env h m hm⟩

/-- Claim C9, witness: one non-map document answered 500 without state
change, one map document answered 200. -/
theorem serveJSON_error_semantics_witness :
    serveJSONStep DefaultConfig 0 { headers := [], host := "w.example", tls := false } [] { next := 1, cells := [(0, SwagVal.str "bogus")] } = ({ next := 1, cells := [(0, SwagVal.str "bogus")] }, { status := 500, body := errBody }) ∧
    (serveJSONStep DefaultConfig 0 { headers := [], host := "w.example", tls := false } [] { next := 1, cells := [(0, SwagVal.obj [("swagger", SwagVal.str "2.0")])] }).2 = { status := 200, body := SwagVal.obj (dynamicSpecOf DefaultConfig [("swagger", SwagVal.str "2.0")] { headers := [], host := "w.example", tls := false } []) } :=
  ⟨(serveJSON_error_semantics DefaultConfig 0 { headers := [], host := "w.example", tls := false } [] { next := 1, cells := [(0, SwagVal.str "bogus")] }).1
      (by intro m hm; simp [Heap.read] at hm),
   (serveJSON_error_semantics DefaultConfig 0 { headers := [], host := "w.example", tls := false } [] { next := 1, cells := [(0, SwagVal.obj [("swagger", SwagVal.str "2.0")])] }).2
      [("swagger", SwagVal.str "2.0")] rfl⟩

/-- Claim C5: with auto-detection enabled the response of the swagger.json
handler is unchanged under any modification of the manual Host and Schemes
fields; with auto-detection disabled and a manual host set, the served host
field is the manual host verbatim for every request and environment (so no
header or environment detection feeds it), and with no manual schemes the
served schemes field still falls back to request-derived scheme
detection. -/
theorem serveJSON_manual_override (config : Config) (specLoc : Nat) (c : Request)
    (env : Env) (h : Heap) :
    (config.AutoDetectHost = true → ∀ x y,
      (serveJSONStep { config with Host := x, Schemes := y } specLoc c env h).2 =
        (serveJSONStep config specLoc c env h).2) ∧
    (config.AutoDetectHost = false → config.Host ≠ "" →
      ∀ m, h.read specLoc = SwagVal.obj m →
      ((serveJSONStep config specLoc c env h).2).hostField = some (SwagVal.str config.Host)) ∧
    (config.AutoDetectHost = false → config.Host ≠ "" → config.Schemes = [] →
      ∀ m, h.read specLoc = SwagVal.obj m →
      ((serveJSONStep config specLoc c env h).2).schemesField = some (SwagVal.strList [detectScheme c env])) := by
  refine ⟨?_, ?_, ?_⟩
  · intro hA x y
    cases hr : h.read specLoc with
    | obj m =>
      rw [serveJSONStep_obj { config with Host := x, Schemes := y } specLoc c env h m hr,
        serveJSONStep_obj config specLoc c env h m hr]
      simp [dynamicSpecOf, hA]
    | str s =>
      have hno : ∀ m, h.read specLoc ≠ SwagVal.obj m := by
        intro m hh; rw [hr] at hh; exact SwagVal.noConfusion hh
      rw [serveJSONStep_not_obj { config with Host := x, Schemes := y } specLoc c env h hno,
        serveJSONStep_not_obj config specLoc c env h hno]
    | strList l =>
      have hno : ∀ m, h.read specLoc ≠ SwagVal.obj m := by
        intro m hh; rw [hr] at hh; exact SwagVal.noConfusion hh
      rw [serveJSONStep_not_obj { config with Host := x, Schemes := y } specLoc c env h hno,
        serveJSONStep_not_obj config specLoc c env h hno]
    | null =>
      have hno : ∀ m, h.read specLoc ≠ SwagVal.obj m := by
        intro m hh; rw [hr] at hh; exact SwagVal.noConfusion hh
      rw [serveJSONStep_not_obj { config with Host := x, Schemes := y } specLoc c env h hno,
        serveJSONStep_not_obj config specLoc c env h hno]
  · intro hA hH m hm
    rw [serveJSONStep_obj config specLoc c env h m hm]
    by_cases hS : 0 < config.Schemes.length
    · simp [Response.hostField, dynamicSpecOf, hA, hH, hS,
        assocGet_mapSet_ne _ _ _ _ (by decide : ("schemes" : String) ≠ "host"),
        assocGet_mapSet_self]
    · simp [Response.hostField, dynamicSpecOf, hA, hH, hS,
        assocGet_mapSet_ne _ _ _ _ (by decide : ("schemes" : String) ≠ "host"),
        assocGet_mapSet_self]
  · intro hA hH hS m hm
    rw [serveJSONStep_obj config specLoc c env h m hm]
    simp [Response.schemesField, dynamicSpecOf, hA, hH, hS, assocGet_mapSet_self]

/-- Claim C5, witness: a config with auto-detection on is insensitive to the
manual fields; one with auto-detection off and a manual host serves that
host and detection-derived schemes. -/
theorem serveJSON_manual_override_witness :
    (serveJSONStep { DefaultConfig with Host := "zzz.example", Schemes := ["ftp"] } 0 { headers := [], host := "w.example", tls := false } [] { next := 1, cells := [(0, SwagVal.obj [("host", SwagVal.str "orig")])] }).2 =
      (serveJSONStep DefaultConfig 0 { headers := [], host := "w.example", tls := false } [] { next := 1, cells := [(0, SwagVal.obj [("host", SwagVal.str "orig")])] }).2 ∧
    ((serveJSONStep { Host := "manual.example", Enabled := true, UIPath := "/swagger", JSONPath := "/swagger.json" } 0 { headers := [], host := "w.example", tls := false } [] { next := 1, cells := [(0, SwagVal.obj [("host", SwagVal.str "orig")])] }).2).hostField = some (SwagVal.str "manual.example") ∧
    ((serveJSONStep { Host := "manual.example", Enabled := true, UIPath := "/swagger", JSONPath := "/swagger.json" } 0 { headers := [], host := "w.example", tls := false } [] { next := 1, cells := [(0, SwagVal.obj [("host", SwagVal.str "orig")])] }).2).schemesField = some (SwagVal.strList [detectScheme { headers := [], host := "w.example", tls := false } []]) :=
  ⟨(serveJSON_manual_override DefaultConfig 0 { headers := [], host := "w.example", tls := false } [] { next := 1, cells := [(0, SwagVal.obj [("host", SwagVal.str "orig")])] }).1 rfl "zzz.example" ["ftp"],
   (serveJSON_manual_override { Host := "manual.example", Enabled := true, UIPath := "/swagger", JSONPath := "/swagger.json" } 0 { headers := [], host := "w.example", tls := false } [] { next := 1, cells := [(0, SwagVal.obj [("host", SwagVal.str "orig")])] }).2.1 rfl (by decide) [("host", SwagVal.str "orig")] rfl,
   (serveJSON_manual_override { Host := "manual.example", Enabled := true, UIPath := "/swagger", JSONPath := "/swagger.json" } 0 { headers := [], host := "w.example", tls := false } [] { next := 1, cells := [(0, SwagVal.obj [("host", SwagVal.str "orig")])] }).2.2 rfl (by decide) rfl [("host", SwagVal.str "orig")] rfl⟩

/-- Claim C7, counterexample. The convenience Setup stub of the
swag_integration variant never consults Enabled: with the service disabled
it still registers the wildcard UI route, so not every setup entry point
registers nothing when disabled. -/
theorem stub_setup_ignores_disabled :
    Stub.Setup (some { DefaultConfig with Enabled := false }) = [Route.ui "/swagger/*any"] ∧
    Stub.Setup (some { DefaultConfig with Enabled := false }) ≠ [] := by
  constructor
  · decide
  · decide

/-- Claim C7, amended: with the service disabled, SetupWithSwag registers
nothing and leaves the package global untouched, the swagger.go Setup
registers nothing, and SetupFromDocs (which delegates to SetupWithSwag)
registers nothing whenever it succeeds; the convenience Setup stub is the
exception — it registers the UI route regardless of Enabled (see the
counterexample). -/
theorem disabled_registers_nothing (config : Config) (g : GlobalState)
    (spec : SwagVal) (hdis : config.Enabled = false) :
    SetupWithSwag spec (some config) g = (g, []) ∧
    SwaggerGo.Setup (some config) = Except.ok (SwaggerGo.New (some config), []) ∧
    (∀ unmarshal doc v, unmarshal doc = Except.ok v →
      SetupFromDocs unmarshal (some doc) (some config) g = Except.ok (g, [])) := by
  refine ⟨?_, ?_, ?_⟩
  · simp [SetupWithSwag, hdis]
  · simp [SwaggerGo.Setup, hdis]
  · intro unmarshal doc v huv
    simp [SetupFromDocs, LoadSwagDocs, huv, SetupWithSwag, hdis]

/-- A concrete stand-in for encoding/json Unmarshal, used only to
instantiate the unmarshal parameter in witnesses: it accepts exactly the
document null. -/
def unmarshalModel : String → Except String SwagVal := fun s =>
  if s = "null" then Except.ok SwagVal.null else Except.error "invalid character"

/-- Claim C7, witness. -/
theorem disabled_registers_nothing_witness :
    SetupWithSwag SwagVal.null (some { DefaultConfig with Enabled := false }) { SwagSpec := none } = ({ SwagSpec := none }, []) ∧
    SwaggerGo.Setup (some { DefaultConfig with Enabled := false }) = Except.ok (SwaggerGo.New (some { DefaultConfig with Enabled := false }), []) ∧
    SetupFromDocs unmarshalModel (some "null") (some { DefaultConfig with Enabled := false }) { SwagSpec := none } = Except.ok ({ SwagSpec := none }, []) :=
  ⟨(disabled_registers_nothing { DefaultConfig with Enabled := false } { SwagSpec := none } SwagVal.null rfl).1,
   (disabled_registers_nothing { DefaultConfig with Enabled := false } { SwagSpec := none } SwagVal.null rfl).2.1,
   (disabled_registers_nothing { DefaultConfig with Enabled := false } { SwagSpec := none } SwagVal.null rfl).2.2 unmarshalModel "null" SwagVal.null rfl⟩

/-- Claim C8: LoadSwagDocs never touches the package-level held spec, and
it returns exactly the error of a failed unmarshal (with no document) and
exactly the parsed document (with no error) of a successful one. Well-formed
and malformed inputs are those the external encoding/json Unmarshal,
abstracted as a parameter, accepts and rejects. -/
theorem LoadSwagDocs_semantics (unmarshal : String → Except String SwagVal)
    (docJSON : String) (g : GlobalState) :
    (LoadSwagDocs unmarshal docJSON g).2 = g ∧
    (∀ e, unmarshal docJSON = Except.error e →
      (LoadSwagDocs unmarshal docJSON g).1 = Except.error e) ∧
    (∀ v, unmarshal docJSON = Except.ok v →
      (LoadSwagDocs unmarshal docJSON g).1 = Except.ok v) := by
  refine ⟨?_, ?_, ?_⟩
  · unfold LoadSwagDocs
    cases unmarshal docJSON <;> rfl
  · intro e he
    simp [LoadSwagDocs, he]
  · intro v hv
    simp [LoadSwagDocs, hv]

/-- Claim C8, witness: a rejected input fails without touching the held
state, an accepted one parses. -/
theorem LoadSwagDocs_semantics_witness :
    (LoadSwagDocs unmarshalModel "oops" { SwagSpec := none }).2 = { SwagSpec := none } ∧
    (LoadSwagDocs unmarshalModel "oops" { SwagSpec := none }).1 = Except.error "invalid character" ∧
    (LoadSwagDocs unmarshalModel "null" { SwagSpec := none }).1 = Except.ok SwagVal.null :=
  ⟨(LoadSwagDocs_semantics unmarshalModel "oops" { SwagSpec := none }).1,
   (LoadSwagDocs_semantics unmarshalModel "oops" { SwagSpec := none }).2.1 "invalid character" rfl,
   (LoadSwagDocs_semantics unmarshalModel "null" { SwagSpec := none }).2.2 SwagVal.null rfl⟩

/-- Claim C10: calling the swagger.go Setup (the entry point that wires the
docHandler JSON route) with a nil config reaches the Enabled check on the
still-nil pointer and fails, although New(nil) had substituted defaults in
its own local; SetupWithSwag(spec, nil) by contrast reassigns its local
config to the defaults first and completes normally, registering both
routes under the default paths. -/
theorem setup_nil_config_dereference :
    SwaggerGo.Setup none = Except.error "nil pointer dereference reading config.Enabled" ∧
    SetupWithSwag SwagVal.null none { SwagSpec := none } =
      ({ SwagSpec := some SwagVal.null }, [Route.json "/swagger.json", Route.ui "/swagger/*any"]) := by
  constructor
  · rfl
  · rfl
